import Mathlib

/-!
Shallow embedding of the spatial panner subsystem of `web-audio-api-rs`
(`src/node/panner.rs`), and proofs of the specification claims about it.

Floating-point (`f32`/`f64`) arithmetic of the source is modelled by exact
real arithmetic over `ℝ`.  Lists of samples stand for the audio blocks.
Rust panics are modelled by `Except.error`.  The external convolution
library (`hrtf` crate) is modelled as an abstract function handed in as a
parameter, with the call record made explicit so that what the code passes
to the library is visible to the theorems.
-/

open Real

/-- Modelled from the spec: `RENDER_QUANTUM_SIZE`, the fixed-size block of
samples processed per invocation of the render path (glossary: "render
quantum"); its definition lives in the crate root, outside `src/`.  The
governing audio-graph specification fixes it at 128 frames. -/
def RENDER_QUANTUM_SIZE : ℕ := 128

/-- A 3-vector of (real-modelled) `f32` components, standing for the
`[f32; 3]` arrays used throughout `PannerRenderer::process`. -/
structure V3 where
  x : ℝ
  y : ℝ
  z : ℝ

namespace V3

/-- Component-wise difference of two 3-vectors. -/
def sub (a b : V3) : V3 := ⟨a.x - b.x, a.y - b.y, a.z - b.z⟩

/-- Dot product of two 3-vectors. -/
def dot (a b : V3) : ℝ := a.x * b.x + a.y * b.y + a.z * b.z

/-- Cross product of two 3-vectors (right-handed). -/
def cross (a b : V3) : V3 :=
  ⟨a.y * b.z - a.z * b.y, a.z * b.x - a.x * b.z, a.x * b.y - a.y * b.x⟩

/-- Euclidean norm of a 3-vector. -/
noncomputable def norm (a : V3) : ℝ := Real.sqrt (a.x ^ 2 + a.y ^ 2 + a.z ^ 2)

end V3

/-- Modelled from the spec: `crate::spatial::distance` (§4.1), whose source
file is not under `src/`: "Euclidean distance between two 3-vectors". -/
noncomputable def spatialDistance (a b : V3) : ℝ := V3.norm (V3.sub a b)

/-- Modelled from the spec: `crate::spatial::angle` (§4.1), whose source
file is not under `src/`: "angle between the source's facing orientation
vector and the vector from source to listener", in degrees — the arccosine
of the normalized dot product. -/
noncomputable def spatialAngle (sourcePos sourceOrientation listenerPos : V3) : ℝ :=
  let toListener := V3.sub listenerPos sourcePos
  Real.arccos (V3.dot sourceOrientation toListener /
    (V3.norm sourceOrientation * V3.norm toListener)) * 180 / Real.pi

/-- Two-argument arctangent, used to express the planar angles of the
listener-basis projection: the argument of the complex number `x + y*I`,
in `(-π, π]`. -/
noncomputable def atan2 (y x : ℝ) : ℝ := Complex.arg (Complex.mk x y)

/-- Modelled from the spec: `crate::spatial::azimuth_and_elevation` (§4.1),
whose source file is not under `src/`: "projects the source-minus-listener
vector into the listener's local basis (forward/up/right, right = forward ×
up, right-handed), returns horizontal and vertical angle in degrees".  The
horizontal angle is the planar angle of the (right, forward) coordinates,
the vertical angle the angle of the up coordinate against the horizontal
projection. -/
noncomputable def azimuthElevation (sourcePos listenerPos listenerForward listenerUp : V3) :
    ℝ × ℝ :=
  let base := V3.sub sourcePos listenerPos
  let right := V3.cross listenerForward listenerUp
  let f := V3.dot base listenerForward / V3.norm listenerForward
  let u := V3.dot base listenerUp / V3.norm listenerUp
  let r := V3.dot base right / V3.norm right
  (atan2 r f * 180 / Real.pi, atan2 u (Real.sqrt (f ^ 2 + r ^ 2)) * 180 / Real.pi)

/-- Distance gain of `PannerRenderer::process` (panner.rs lines 460–466):
`1/distance` when `distance > 0`, else `1` (inverse distance model). -/
noncomputable def distGain (distance : ℝ) : ℝ :=
  if 0 < distance then 1 / distance else 1

/-- The distance gain computed by `PannerRenderer::process` from the source
and listener positions. -/
noncomputable def sourceDistGain (sourcePosition listenerPosition : V3) : ℝ :=
  distGain (spatialDistance sourcePosition listenerPosition)

/-- Cone effect gain of `PannerRenderer::process` (panner.rs lines
468–488), as a function of the cone configuration and of the angle
returned by `crate::spatial::angle`. -/
noncomputable def coneGain (innerAngle outerAngle outerGain absAngle : ℝ) : ℝ :=
  let absInnerAngle := |innerAngle| / 2
  let absOuterAngle := |outerAngle| / 2
  if 180 ≤ absInnerAngle ∧ 180 ≤ absOuterAngle then
    1
  else if absAngle < absInnerAngle then
    1
  else if absOuterAngle ≤ absAngle then
    outerGain
  else
    let x := (absAngle - absInnerAngle) / (absOuterAngle - absInnerAngle)
    (1 - x) + outerGain * x

/-- Azimuth clamping and folding of the EqualPower branch of
`PannerRenderer::process` (panner.rs lines 527–536): clamp to
`[-180, 180]`, then reflect values outside `[-90, 90]` back into it. -/
noncomputable def foldAzimuth (azimuth : ℝ) : ℝ :=
  let a1 := max azimuth (-180)
  let a2 := min a1 180
  if a2 < -90 then -180 - a2
  else if 90 < a2 then 180 - a2
  else a2

/-- Left ear gain of the EqualPower branch (panner.rs lines 538–540):
`cos(x·π/2)` with `x = (folded azimuth + 90) / 180`. -/
noncomputable def equalPowerGainL (azimuth : ℝ) : ℝ :=
  Real.cos ((foldAzimuth azimuth + 90) / 180 * (Real.pi / 2))

/-- Right ear gain of the EqualPower branch (panner.rs lines 538–541):
`sin(x·π/2)` with `x = (folded azimuth + 90) / 180`. -/
noncomputable def equalPowerGainR (azimuth : ℝ) : ℝ :=
  Real.sin ((foldAzimuth azimuth + 90) / 180 * (Real.pi / 2))

/-- Raw HRTF direction vector of `PannerRenderer::process` (panner.rs
lines 493–499): azimuth/elevation converted to radians, then to Cartesian
coordinates `[x, y, z] = [sin az · cos el, sin el, cos az · cos el]`. -/
noncomputable def projectedSource (azimuth elevation : ℝ) : ℝ × ℝ × ℝ :=
  let azRad := azimuth * Real.pi / 180
  let elRad := elevation * Real.pi / 180
  (Real.sin azRad * Real.cos elRad, Real.sin elRad, Real.cos azRad * Real.cos elRad)

/-- The degeneracy test of panner.rs line 501: `float_eq!` with
`abs_all <= 1E-6`, i.e. every component within `1e-6` of zero. -/
def isDegenerate (v : ℝ × ℝ × ℝ) : Prop :=
  |v.1| ≤ 1e-6 ∧ |v.2.1| ≤ 1e-6 ∧ |v.2.2| ≤ 1e-6

open Classical in
/-- The fallback of panner.rs lines 501–503: a degenerate direction vector
is replaced by the listener-forward unit vector `(0, 0, 1)`. -/
noncomputable def fallbackDirection (v : ℝ × ℝ × ℝ) : ℝ × ℝ × ℝ :=
  if isDegenerate v then (0, 0, 1) else v

/-- The direction vector actually handed to the HRTF state by
`PannerRenderer::process`: the raw azimuth/elevation conversion with the
degenerate-vector fallback applied. -/
noncomputable def processDirection (azimuth elevation : ℝ) : ℝ × ℝ × ℝ :=
  fallbackDirection (projectedSource azimuth elevation)

/-- Euclidean magnitude of a direction triple. -/
noncomputable def magnitude (v : ℝ × ℝ × ℝ) : ℝ :=
  Real.sqrt (v.1 ^ 2 + v.2.1 ^ 2 + v.2.2 ^ 2)

/-- One `AudioRenderQuantum`: a block of audio as a list of channels, each
a list of samples (the source fixes each channel at
`RENDER_QUANTUM_SIZE` samples; the model keeps the length abstract). -/
structure AudioRenderQuantum where
  channels : List (List ℝ)

/-- `AudioRenderQuantum::is_silent`: every sample of every channel is
zero. -/
def AudioRenderQuantum.isSilent (q : AudioRenderQuantum) : Prop :=
  ∀ c ∈ q.channels, ∀ s ∈ c, s = 0

/-- `AudioRenderQuantum::channel_data(i)`: the `i`-th channel (empty when
out of range). -/
def AudioRenderQuantum.channel (q : AudioRenderQuantum) (i : ℕ) : List ℝ :=
  q.channels.getD i []

/-- Modelled from the spec: the graph engine's
`mix(1, ChannelInterpretation::Speakers)` down-mix primitive (an external
collaborator, §1/§4.4 step 1: "down-mix/merge channels to mono") invoked by
`PannerRenderer::process`.  A mono block is unchanged, a stereo block is
merged as the mean of left and right; any other shape keeps its first
channel. -/
noncomputable def mixToMono (q : AudioRenderQuantum) : AudioRenderQuantum :=
  match q.channels with
  | [c] => ⟨[c]⟩
  | [l, r] => ⟨[List.zipWith (fun a b => (a + b) * (1 / 2)) l r]⟩
  | _ => ⟨[q.channels.headD []]⟩

/-- Modelled from the spec: the graph engine's
`mix(2, ChannelInterpretation::Speakers)` up-mix primitive (an external
collaborator, §4.4 step 3: "Up-mix mono to stereo (duplicate channel)")
invoked by `PannerRenderer::process`.  A mono block is duplicated; any
other shape is unchanged. -/
def mixToStereo (q : AudioRenderQuantum) : AudioRenderQuantum :=
  match q.channels with
  | [c] => ⟨[c, c]⟩
  | _ => q

/-- The `hrtf` crate's `Vec3`, the coordinate type of the convolution
library's own convention. -/
structure HrtfVec3 where
  x : ℝ
  y : ℝ
  z : ℝ

/-- The `HrtfContext` handed to `HrtfProcessor::process_samples` by
`HrtfState::process` (panner.rs lines 129–138): the call record of one
invocation of the convolution library. -/
structure HrtfCall where
  source : List ℝ
  newSampleVector : HrtfVec3
  prevSampleVector : HrtfVec3
  newDistanceGain : ℝ
  prevDistanceGain : ℝ

/-- Abstract model of the convolution library (`HrtfProcessor`): given one
call record it produces the interleaved stereo output block and the new
left/right tail-sample buffers.  Treated as a black box per the spec
(§1). -/
structure HrtfLib where
  processSamples : HrtfCall → List (ℝ × ℝ) × List ℝ × List ℝ

/-- `HrtfState` (panner.rs lines 91–98): the HRTF convolution state —
processor configuration, preallocated interleaved output buffer, and
cross-block smoothing memory. -/
structure HrtfState where
  interpolationSteps : ℕ
  samplesPerStep : ℕ
  outputInterleaved : List (ℝ × ℝ)
  prevSampleVector : HrtfVec3
  prevLeftSamples : List ℝ
  prevRightSamples : List ℝ
  prevDistanceGain : ℝ

/-- `HrtfState::new` (panner.rs lines 100–115): one interpolation step per
quantum, `RENDER_QUANTUM_SIZE / interpolation_steps` samples per step, a
zero-filled interleaved output buffer of one quantum, previous direction
`(0, 0, 1)`, empty tail buffers, previous distance gain `0`. -/
def HrtfState.new : HrtfState :=
  let interpolationSteps := 1
  let samplesPerStep := RENDER_QUANTUM_SIZE / interpolationSteps
  { interpolationSteps := interpolationSteps
    samplesPerStep := samplesPerStep
    outputInterleaved := List.replicate RENDER_QUANTUM_SIZE (0, 0)
    prevSampleVector := ⟨0, 0, 1⟩
    prevLeftSamples := []
    prevRightSamples := []
    prevDistanceGain := 0 }

/-- The conversion of the `[f32; 3]` direction into the library's `Vec3`
(panner.rs lines 123–127): note that the struct literal assigns
`z: projected_source[1]` and `y: projected_source[2]`, swapping the last
two components into the library's coordinate convention. -/
def toSampleVector (projSource : ℝ × ℝ × ℝ) : HrtfVec3 :=
  { x := projSource.1, y := projSource.2.2, z := projSource.2.1 }

/-- `HrtfState::process` (panner.rs lines 117–146): builds the call record
from the previous state and the new direction/gain, invokes the
convolution library, stores the new direction and gain as the previous
ones for the next call, and returns the interleaved output block.  The
call record itself is returned so the theorems can speak about what was
handed to the library. -/
def HrtfState.process (lib : HrtfLib) (st : HrtfState) (source : List ℝ)
    (newDistanceGain : ℝ) (projSource : ℝ × ℝ × ℝ) :
    HrtfState × List (ℝ × ℝ) × HrtfCall :=
  let newSampleVector := toSampleVector projSource
  let call : HrtfCall :=
    { source := source
      newSampleVector := newSampleVector
      prevSampleVector := st.prevSampleVector
      newDistanceGain := newDistanceGain
      prevDistanceGain := st.prevDistanceGain }
  let res := lib.processSamples call
  let st' : HrtfState :=
    { st with
      outputInterleaved := res.1
      prevLeftSamples := res.2.1
      prevRightSamples := res.2.2
      prevSampleVector := newSampleVector
      prevDistanceGain := newDistanceGain }
  (st', res.1, call)

/-- `ChannelCountMode` of the graph engine (node/mod.rs, outside `src/`);
the three variants named by panner.rs. -/
inductive ChannelCountMode where
  | Max
  | ClampedMax
  | Explicit
deriving DecidableEq, Repr

/-- The mutable channel configuration of a node: count and count mode
(interpretation plays no role in the claims). -/
structure ChannelConfigState where
  count : ℕ
  mode : ChannelCountMode
deriving DecidableEq, Repr

/-- The error message of `PannerNode::set_channel_count` (panner.rs line
229). -/
def channelCountError : String :=
  "NotSupportedError: PannerNode channel count cannot be greater than two"

/-- The error message of `PannerNode::set_channel_count_mode` (panner.rs
line 236). -/
def channelCountModeError : String :=
  "NotSupportedError: PannerNode channel count mode cannot be set to max"

/-- `PannerNode::set_channel_count` (panner.rs lines 227–232): panics (an
`Except.error` in the model) for a count greater than two, otherwise
stores the new count.  The underlying `ChannelConfig::set_count` store is
modelled from the spec (§6), its source being outside `src/`. -/
def setChannelCount (cfg : ChannelConfigState) (v : ℕ) : Except String ChannelConfigState :=
  if v > 2 then
    Except.error channelCountError
  else
    Except.ok { cfg with count := v }

/-- `PannerNode::set_channel_count_mode` (panner.rs lines 234–239): panics
(an `Except.error` in the model) for `Max`, otherwise stores the new mode.
The underlying `ChannelConfig::set_count_mode` store is modelled from the
spec (§6), its source being outside `src/`. -/
def setChannelCountMode (cfg : ChannelConfigState) (v : ChannelCountMode) :
    Except String ChannelConfigState :=
  if v = ChannelCountMode.Max then
    Except.error channelCountModeError
  else
    Except.ok { cfg with mode := v }

/-- The state of `PannerRenderer` (panner.rs lines 380–391) that matters
per block: the three cone scalars read from the atomic cells, and the
optional HRTF state (`Some` exactly when the panning model is HRTF). -/
structure PannerRenderState where
  coneInnerAngle : ℝ
  coneOuterAngle : ℝ
  coneOuterGain : ℝ
  hrtfState : Option HrtfState

/-- The result of one `PannerRenderer::process` call: the output quantum,
the returned keep-alive flag, and the (possibly updated) HRTF state. -/
structure ProcessResult where
  output : AudioRenderQuantum
  keepAlive : Bool
  hrtfState : Option HrtfState

open Classical in
/-- `PannerRenderer::process` (panner.rs lines 394–555).  The input
quantum, the block-rate source parameter values (first sample of each
parameter block) and the listener scalars (first sample of each of the
nine auxiliary inputs) are taken directly; the convolution library is the
abstract `lib`. -/
noncomputable def PannerRenderer.process (lib : HrtfLib) (st : PannerRenderState)
    (input : AudioRenderQuantum) (sourcePosition sourceOrientation : V3)
    (listenerPosition listenerForward listenerUp : V3) : ProcessResult :=
  -- pass through input, down-mix to mono
  let output := mixToMono input
  -- early exit for silence
  if input.isSilent then
    { output := output, keepAlive := false, hrtfState := st.hrtfState }
  else
    -- convert mono to identical stereo
    let output := mixToStereo output
    let azel := azimuthElevation sourcePosition listenerPosition listenerForward listenerUp
    let azimuth := azel.1
    let elevation := azel.2
    -- determine distance gain
    let dist := spatialDistance sourcePosition listenerPosition
    let distanceGain := distGain dist
    -- determine cone effect gain
    let cone := coneGain st.coneInnerAngle st.coneOuterAngle st.coneOuterGain
      (spatialAngle sourcePosition sourceOrientation listenerPosition)
    match st.hrtfState with
    | some hs =>
        let newDistanceGain := cone * distanceGain
        let projSource := processDirection azimuth elevation
        let res := HrtfState.process lib hs (output.channel 0) newDistanceGain projSource
        let interleaved := res.2.1
        let ch0 := List.zipWith (fun p (_ : ℝ) => p.1) interleaved (output.channel 0)
        let ch1 := List.zipWith (fun p (_ : ℝ) => p.2) interleaved (output.channel 1)
        -- defensive reset of the interleaved scratch buffer after copying
        let hs' := { res.1 with
          outputInterleaved := List.replicate res.1.outputInterleaved.length (0, 0) }
        { output := ⟨[ch0, ch1]⟩, keepAlive := false, hrtfState := some hs' }
    | none =>
        let gainL := equalPowerGainL azimuth
        let gainR := equalPowerGainR azimuth
        let ch0 := (output.channel 0).map (fun v => v * (gainL * distanceGain * cone))
        let ch1 := (output.channel 1).map (fun v => v * (gainR * distanceGain * cone))
        { output := ⟨[ch0, ch1]⟩, keepAlive := false, hrtfState := none }

/-- Concrete convolution library used to instantiate witnesses. -/
def testLib : HrtfLib := ⟨fun _ => ([], [], [])⟩

/-- The zero vector, used to instantiate witnesses. -/
def v0 : V3 := ⟨0, 0, 0⟩

/-- A one-sample silent quantum, used to instantiate witnesses. -/
def silentQuantum : AudioRenderQuantum := ⟨[[0]]⟩

/-- A one-sample non-silent quantum, used to instantiate witnesses. -/
def oneQuantum : AudioRenderQuantum := ⟨[[1]]⟩

/-- A concrete render state with the default cone (no attenuation) and no
HRTF state, used to instantiate witnesses. -/
def testState : PannerRenderState := ⟨360, 360, 0, none⟩

/-- The mono down-mix always produces exactly one channel, namely its own
channel 0. -/
lemma mixToMono_eq (q : AudioRenderQuantum) :
    mixToMono q = ⟨[(mixToMono q).channel 0]⟩ := by
  rcases q with ⟨_ | ⟨c, _ | ⟨d, _ | rest⟩⟩⟩ <;>
    simp [mixToMono, AudioRenderQuantum.channel]

/-- A zip of two all-zero sample lists under a merge function sending
`(0, 0)` to `0` is all zero. -/
lemma zipWith_silent (f : ℝ → ℝ → ℝ) (hf : f 0 0 = 0) (l r : List ℝ)
    (hl : ∀ s ∈ l, s = 0) (hr : ∀ s ∈ r, s = 0) :
    ∀ s ∈ List.zipWith f l r, s = 0 := by
  induction l generalizing r with
  | nil => simp
  | cons a t ih =>
    cases r with
    | nil => simp
    | cons b u =>
      intro s hs
      simp only [List.zipWith, List.mem_cons] at hs
      rcases hs with rfl | hs
      · rw [hl a (by simp), hr b (by simp)]
        exact hf
      · exact ih u (fun s h => hl s (List.mem_cons_of_mem _ h))
          (fun s h => hr s (List.mem_cons_of_mem _ h)) s hs

/-- The mono down-mix of a silent quantum is silent. -/
lemma mixToMono_silent (q : AudioRenderQuantum) (h : q.isSilent) :
    (mixToMono q).isSilent := by
  have key : ∀ s ∈ (mixToMono q).channel 0, s = 0 := by
    rcases q with ⟨_ | ⟨c, _ | ⟨d, _ | ⟨e, rest⟩⟩⟩⟩
    · simp [mixToMono, AudioRenderQuantum.channel]
    · intro s hs
      exact h c (by simp) s (by simpa [mixToMono, AudioRenderQuantum.channel] using hs)
    · intro s hs
      exact zipWith_silent (fun a b => (a + b) * (1 / 2)) (by norm_num) c d
        (h c (by simp)) (h d (by simp)) s hs
    · intro s hs
      exact h c (by simp) s (by simpa [mixToMono, AudioRenderQuantum.channel] using hs)
  intro ch hch s hs
  have hch' : ch = (mixToMono q).channel 0 := by
    rw [mixToMono_eq q] at hch
    simpa using hch
  exact key s (hch' ▸ hs)

/-- C4.  For every azimuth value, the EqualPower left and right channel
gains of `PannerRenderer::process` satisfy
`gain_l² + gain_r² = 1` (equal-power invariant). -/
theorem equalPower_gain_sq_sum (az : ℝ) :
    equalPowerGainL az ^ 2 + equalPowerGainR az ^ 2 = 1 := by
  unfold equalPowerGainL equalPowerGainR
  exact Real.cos_sq_add_sin_sq _

/-- C7.  The keep-alive flag returned by `PannerRenderer::process` is
`false` on every invocation, whatever the panning model (EqualPower or
HRTF) and the input content. -/
theorem process_keep_alive_false (lib : HrtfLib) (st : PannerRenderState)
    (input : AudioRenderQuantum) (sp so lp lf lu : V3) :
    (PannerRenderer.process lib st input sp so lp lf lu).keepAlive = false := by
  rcases st with ⟨ci, co, cg, hso⟩
  by_cases h : input.isSilent <;> cases hso <;>
    simp [PannerRenderer.process, h]

/-- C8.  `PannerNode::set_channel_count` fails with a `NotSupportedError`
for every count greater than two and otherwise stores the new count
leaving the mode untouched; `PannerNode::set_channel_count_mode` fails for
`Max` and otherwise stores the new mode leaving the count untouched; a
failing call leaves the configuration unchanged (no new state is
produced). -/
theorem set_channel_count_spec (cfg : ChannelConfigState) (v : ℕ) (m : ChannelCountMode) :
    (2 < v → setChannelCount cfg v = Except.error channelCountError) ∧
    (v ≤ 2 → setChannelCount cfg v = Except.ok { cfg with count := v }) ∧
    (setChannelCountMode cfg ChannelCountMode.Max = Except.error channelCountModeError) ∧
    (m ≠ ChannelCountMode.Max → setChannelCountMode cfg m = Except.ok { cfg with mode := m }) := by
  refine ⟨fun h => ?_, fun h => ?_, ?_, fun h => ?_⟩
  · simp [setChannelCount, h]
  · simp [setChannelCount, Nat.not_lt.mpr h]
  · simp [setChannelCountMode]
  · simp [setChannelCountMode, h]

/-- Witness for C8 at a concrete configuration: count 3 is rejected,
count 2 accepted, mode `Explicit` accepted, with the expected resulting
configurations. -/
theorem set_channel_count_witness :
    2 < 3 ∧
    setChannelCount ⟨2, ChannelCountMode.ClampedMax⟩ 3 = Except.error channelCountError ∧
    2 ≤ 2 ∧
    setChannelCount ⟨2, ChannelCountMode.ClampedMax⟩ 2 =
      Except.ok ⟨2, ChannelCountMode.ClampedMax⟩ ∧
    setChannelCountMode ⟨2, ChannelCountMode.ClampedMax⟩ ChannelCountMode.Max =
      Except.error channelCountModeError ∧
    ChannelCountMode.Explicit ≠ ChannelCountMode.Max ∧
    setChannelCountMode ⟨2, ChannelCountMode.ClampedMax⟩ ChannelCountMode.Explicit =
      Except.ok ⟨2, ChannelCountMode.Explicit⟩ := by
  have h := set_channel_count_spec ⟨2, ChannelCountMode.ClampedMax⟩ 3 ChannelCountMode.Explicit
  have h2 := set_channel_count_spec ⟨2, ChannelCountMode.ClampedMax⟩ 2 ChannelCountMode.Explicit
  exact ⟨by decide, h.1 (by decide), by decide, h2.2.1 (by decide), h.2.2.1, by decide,
    h.2.2.2 (by decide)⟩

/-- C9.  `HrtfState::new` sets one interpolation step per quantum with a
full quantum of samples per step, preallocates the interleaved output
buffer at one quantum, and initializes the previous direction to the
forward unit vector `(0,0,1)` and the previous distance gain to `0`; and
`HrtfState::process` hands the convolution library both the previous
direction/gain from its state and the new direction/gain of the call,
then stores the new direction (in the library's coordinate convention)
and gain as the previous ones — the smoothing memory always holds the
arguments of the most recent call. -/
theorem hrtf_state_smoothing (lib : HrtfLib) (st : HrtfState) (source : List ℝ)
    (g : ℝ) (d : ℝ × ℝ × ℝ) :
    HrtfState.new.interpolationSteps = 1 ∧
    HrtfState.new.samplesPerStep = RENDER_QUANTUM_SIZE ∧
    HrtfState.new.outputInterleaved.length = RENDER_QUANTUM_SIZE ∧
    HrtfState.new.prevSampleVector = ⟨0, 0, 1⟩ ∧
    HrtfState.new.prevDistanceGain = 0 ∧
    (HrtfState.process lib st source g d).2.2.source = source ∧
    (HrtfState.process lib st source g d).2.2.prevSampleVector = st.prevSampleVector ∧
    (HrtfState.process lib st source g d).2.2.prevDistanceGain = st.prevDistanceGain ∧
    (HrtfState.process lib st source g d).2.2.newSampleVector = toSampleVector d ∧
    (HrtfState.process lib st source g d).2.2.newDistanceGain = g ∧
    (HrtfState.process lib st source g d).1.prevSampleVector = toSampleVector d ∧
    (HrtfState.process lib st source g d).1.prevDistanceGain = g := by
  refine ⟨rfl, rfl, ?_, rfl, rfl, rfl, rfl, rfl, rfl, rfl, rfl, rfl⟩
  simp [HrtfState.new]

/-- C1.  The distance gain of `PannerRenderer::process` is `1/distance`
whenever the Euclidean distance between source and listener is positive
and exactly `1` when the distance is `0`; it is always strictly positive
(no division by zero, no NaN or infinity in the exact-real model). -/
theorem distance_gain_spec (s l : V3) :
    (0 < spatialDistance s l → sourceDistGain s l = 1 / spatialDistance s l) ∧
    (spatialDistance s l = 0 → sourceDistGain s l = 1) ∧
    0 < sourceDistGain s l := by
  refine ⟨fun h => ?_, fun h => ?_, ?_⟩
  · simp [sourceDistGain, distGain, h]
  · simp [sourceDistGain, distGain, h]
  · by_cases h : 0 < spatialDistance s l
    · simp only [sourceDistGain, distGain, if_pos h]
      exact one_div_pos.mpr h
    · simp [sourceDistGain, distGain, h]

/-- Witness for C1: at source `(0,0,0)` and listener `(0,3,4)` the
distance is `5 > 0` and the gain `1/5`; at coincident points the distance
is `0` and the gain `1`. -/
theorem distance_gain_witness :
    0 < spatialDistance ⟨0, 0, 0⟩ ⟨0, 3, 4⟩ ∧
    sourceDistGain ⟨0, 0, 0⟩ ⟨0, 3, 4⟩ = 1 / spatialDistance ⟨0, 0, 0⟩ ⟨0, 3, 4⟩ ∧
    spatialDistance ⟨1, 2, 3⟩ ⟨1, 2, 3⟩ = 0 ∧
    sourceDistGain ⟨1, 2, 3⟩ ⟨1, 2, 3⟩ = 1 := by
  have h5 : spatialDistance ⟨0, 0, 0⟩ ⟨0, 3, 4⟩ = 5 := by
    simp only [spatialDistance, V3.norm, V3.sub]
    rw [show ((0:ℝ) - 0) ^ 2 + ((0:ℝ) - 3) ^ 2 + ((0:ℝ) - 4) ^ 2 = 5 ^ 2 by norm_num]
    exact Real.sqrt_sq (by norm_num)
  have hz : spatialDistance ⟨1, 2, 3⟩ ⟨1, 2, 3⟩ = 0 := by
    simp only [spatialDistance, V3.norm, V3.sub]
    rw [show ((1:ℝ) - 1) ^ 2 + ((2:ℝ) - 2) ^ 2 + ((3:ℝ) - 3) ^ 2 = 0 by norm_num]
    exact Real.sqrt_zero
  have hpos : 0 < spatialDistance ⟨0, 0, 0⟩ ⟨0, 3, 4⟩ := by rw [h5]; norm_num
  exact ⟨hpos, (distance_gain_spec ⟨0, 0, 0⟩ ⟨0, 3, 4⟩).1 hpos, hz,
    (distance_gain_spec ⟨1, 2, 3⟩ ⟨1, 2, 3⟩).2.1 hz⟩

/-- C2.  The cone gain of `PannerRenderer::process` equals `1` when both
half-angles `|inner|/2` and `|outer|/2` are at least `180°`; otherwise it
is `1` below the half-inner angle, the configured outer gain at or above
the half-outer angle, and the linear interpolation
`(1 - x) + outer_gain · x` with `x = (angle - half_inner)/(half_outer -
half_inner)` in between — so with `half_inner < half_outer` the gain at
exactly the half-inner angle is `1` and at exactly the half-outer angle it
is the configured outer gain. -/
theorem cone_gain_spec (i o g a : ℝ) :
    (180 ≤ |i| / 2 ∧ 180 ≤ |o| / 2 → coneGain i o g a = 1) ∧
    (¬(180 ≤ |i| / 2 ∧ 180 ≤ |o| / 2) →
      (a < |i| / 2 → coneGain i o g a = 1) ∧
      (|i| / 2 ≤ a → |o| / 2 ≤ a → coneGain i o g a = g) ∧
      (|i| / 2 ≤ a → a < |o| / 2 →
        coneGain i o g a =
          (1 - (a - |i| / 2) / (|o| / 2 - |i| / 2)) +
            g * ((a - |i| / 2) / (|o| / 2 - |i| / 2))) ∧
      (|i| / 2 < |o| / 2 → coneGain i o g (|i| / 2) = 1) ∧
      (|i| / 2 ≤ |o| / 2 → coneGain i o g (|o| / 2) = g)) := by
  have cg : ∀ b : ℝ, coneGain i o g b =
      if 180 ≤ |i| / 2 ∧ 180 ≤ |o| / 2 then 1
      else if b < |i| / 2 then 1
      else if |o| / 2 ≤ b then g
      else (1 - (b - |i| / 2) / (|o| / 2 - |i| / 2)) +
        g * ((b - |i| / 2) / (|o| / 2 - |i| / 2)) := fun _ => rfl
  constructor
  · intro h
    rw [cg, if_pos h]
  · intro h
    refine ⟨fun h1 => ?_, fun h1 h2 => ?_, fun h3 h4 => ?_, fun h5 => ?_, fun h6 => ?_⟩
    · rw [cg, if_neg h, if_pos h1]
    · rw [cg, if_neg h, if_neg (not_lt.mpr h1), if_pos h2]
    · rw [cg, if_neg h, if_neg (not_lt.mpr h3), if_neg (not_le.mpr h4)]
    · rw [cg, if_neg h, if_neg (lt_irrefl _), if_neg (not_le.mpr h5)]
      rw [sub_self, zero_div]
      ring
    · rw [cg, if_neg h, if_neg (not_lt.mpr h6), if_pos (le_refl _)]

/-- Witness for C2 at inner angle 90°, outer angle 180°, outer gain 1/2:
all five branches (cone disabled at 360°/360°, below half-inner, above
half-outer, interpolation, and both boundary values) at concrete
angles. -/
theorem cone_gain_witness :
    ¬(180 ≤ |(90:ℝ)| / 2 ∧ 180 ≤ |(180:ℝ)| / 2) ∧
    ((30:ℝ) < |(90:ℝ)| / 2 ∧ coneGain 90 180 (1/2) 30 = 1) ∧
    (|(90:ℝ)| / 2 ≤ 120 ∧ |(180:ℝ)| / 2 ≤ 120 ∧ coneGain 90 180 (1/2) 120 = 1/2) ∧
    (|(90:ℝ)| / 2 ≤ 60 ∧ (60:ℝ) < |(180:ℝ)| / 2 ∧
      coneGain 90 180 (1/2) 60 =
        (1 - (60 - |(90:ℝ)| / 2) / (|(180:ℝ)| / 2 - |(90:ℝ)| / 2)) +
          (1/2) * ((60 - |(90:ℝ)| / 2) / (|(180:ℝ)| / 2 - |(90:ℝ)| / 2))) ∧
    (|(90:ℝ)| / 2 < |(180:ℝ)| / 2 ∧ coneGain 90 180 (1/2) (|(90:ℝ)| / 2) = 1) ∧
    (|(90:ℝ)| / 2 ≤ |(180:ℝ)| / 2 ∧ coneGain 90 180 (1/2) (|(180:ℝ)| / 2) = 1/2) ∧
    ((180 ≤ |(360:ℝ)| / 2 ∧ 180 ≤ |(360:ℝ)| / 2) ∧ coneGain 360 360 (1/2) 10 = 1) := by
  have h90 : |(90:ℝ)| = 90 := abs_of_nonneg (by norm_num)
  have h180 : |(180:ℝ)| = 180 := abs_of_nonneg (by norm_num)
  have h360 : |(360:ℝ)| = 360 := abs_of_nonneg (by norm_num)
  have hn : ¬(180 ≤ |(90:ℝ)| / 2 ∧ 180 ≤ |(180:ℝ)| / 2) := by rw [h90, h180]; norm_num
  have hb : 180 ≤ |(360:ℝ)| / 2 ∧ 180 ≤ |(360:ℝ)| / 2 := by rw [h360]; norm_num
  have h1 : (30:ℝ) < |(90:ℝ)| / 2 := by rw [h90]; norm_num
  have h2a : |(90:ℝ)| / 2 ≤ 120 := by rw [h90]; norm_num
  have h2b : |(180:ℝ)| / 2 ≤ 120 := by rw [h180]; norm_num
  have h3a : |(90:ℝ)| / 2 ≤ 60 := by rw [h90]; norm_num
  have h3b : (60:ℝ) < |(180:ℝ)| / 2 := by rw [h180]; norm_num
  have h4 : |(90:ℝ)| / 2 < |(180:ℝ)| / 2 := by rw [h90, h180]; norm_num
  exact ⟨hn, ⟨h1, ((cone_gain_spec 90 180 (1/2) 30).2 hn).1 h1⟩,
    ⟨h2a, h2b, ((cone_gain_spec 90 180 (1/2) 120).2 hn).2.1 h2a h2b⟩,
    ⟨h3a, h3b, ((cone_gain_spec 90 180 (1/2) 60).2 hn).2.2.1 h3a h3b⟩,
    ⟨h4, ((cone_gain_spec 90 180 (1/2) 0).2 hn).2.2.2.1 h4⟩,
    ⟨le_of_lt h4, ((cone_gain_spec 90 180 (1/2) 0).2 hn).2.2.2.2 (le_of_lt h4)⟩,
    ⟨hb, (cone_gain_spec 360 360 (1/2) 10).1 hb⟩⟩

/-- C5.  The direction vector handed to the HRTF state by
`PannerRenderer::process` is the azimuth/elevation conversion
`(sin az · cos el, sin el, cos az · cos el)` (angles in radians) with the
degenerate-vector fallback applied: a vector whose three components all
lie within `1e-6` of zero is replaced by the forward vector `(0,0,1)`; in
particular any vector of magnitude `1e-7` triggers the fallback while any
vector of magnitude `1e-4` does not. -/
theorem hrtf_direction_spec :
    (∀ az el, processDirection az el = fallbackDirection (projectedSource az el)) ∧
    (∀ az el, projectedSource az el =
      (Real.sin (az * Real.pi / 180) * Real.cos (el * Real.pi / 180),
       Real.sin (el * Real.pi / 180),
       Real.cos (az * Real.pi / 180) * Real.cos (el * Real.pi / 180))) ∧
    (∀ v, magnitude v = 1e-7 → fallbackDirection v = (0, 0, 1)) ∧
    (∀ v, magnitude v = 1e-4 → fallbackDirection v = v) := by
  refine ⟨fun _ _ => rfl, fun _ _ => rfl, fun v hv => ?_, fun v hv => ?_⟩
  · have hb : ∀ c : ℝ, c ^ 2 ≤ v.1 ^ 2 + v.2.1 ^ 2 + v.2.2 ^ 2 → |c| ≤ 1e-6 := by
      intro c hc
      have h1 : Real.sqrt (c ^ 2) ≤ magnitude v := Real.sqrt_le_sqrt hc
      rw [Real.sqrt_sq_eq_abs, hv] at h1
      linarith
    have hd : isDegenerate v :=
      ⟨hb v.1 (by nlinarith [sq_nonneg v.2.1, sq_nonneg v.2.2]),
       hb v.2.1 (by nlinarith [sq_nonneg v.1, sq_nonneg v.2.2]),
       hb v.2.2 (by nlinarith [sq_nonneg v.1, sq_nonneg v.2.1])⟩
    rw [fallbackDirection, if_pos hd]
  · rw [fallbackDirection, if_neg]
    intro hd
    obtain ⟨h1, h2, h3⟩ := hd
    have hs : (Real.sqrt (v.1 ^ 2 + v.2.1 ^ 2 + v.2.2 ^ 2)) ^ 2 =
        v.1 ^ 2 + v.2.1 ^ 2 + v.2.2 ^ 2 :=
      Real.sq_sqrt (by positivity)
    rw [show Real.sqrt (v.1 ^ 2 + v.2.1 ^ 2 + v.2.2 ^ 2) = magnitude v from rfl, hv] at hs
    nlinarith [sq_abs v.1, sq_abs v.2.1, sq_abs v.2.2, abs_nonneg v.1,
      abs_nonneg v.2.1, abs_nonneg v.2.2]

/-- Witness for C5: the vector `(1e-7, 0, 0)` has magnitude `1e-7` and is
replaced by the forward fallback; the vector `(1e-4, 0, 0)` has magnitude
`1e-4` and is kept. -/
theorem hrtf_direction_witness :
    magnitude (1e-7, 0, 0) = 1e-7 ∧ fallbackDirection (1e-7, 0, 0) = (0, 0, 1) ∧
    magnitude (1e-4, 0, 0) = 1e-4 ∧ fallbackDirection (1e-4, 0, 0) = (1e-4, 0, 0) := by
  have h1 : magnitude (1e-7, 0, 0) = 1e-7 := by
    show Real.sqrt ((1e-7:ℝ) ^ 2 + (0:ℝ) ^ 2 + (0:ℝ) ^ 2) = 1e-7
    rw [show ((1e-7:ℝ) ^ 2 + (0:ℝ) ^ 2 + (0:ℝ) ^ 2) = (1e-7:ℝ) ^ 2 by norm_num]
    exact Real.sqrt_sq (by norm_num)
  have h2 : magnitude (1e-4, 0, 0) = 1e-4 := by
    show Real.sqrt ((1e-4:ℝ) ^ 2 + (0:ℝ) ^ 2 + (0:ℝ) ^ 2) = 1e-4
    rw [show ((1e-4:ℝ) ^ 2 + (0:ℝ) ^ 2 + (0:ℝ) ^ 2) = (1e-4:ℝ) ^ 2 by norm_num]
    exact Real.sqrt_sq (by norm_num)
  exact ⟨h1, hrtf_direction_spec.2.2.1 _ h1, h2, hrtf_direction_spec.2.2.2 _ h2⟩

/-- C10.  `PannerRenderer::process` writes an output quantum with exactly
two channels for every non-silent input block (the input is down-mixed to
mono and then duplicated to stereo before gains or convolution are
applied), and leaves the output as the one-channel mono down-mix for a
silent input block. -/
theorem process_channel_count (lib : HrtfLib) (st : PannerRenderState)
    (input : AudioRenderQuantum) (sp so lp lf lu : V3) :
    (input.isSilent →
      (PannerRenderer.process lib st input sp so lp lf lu).output.channels.length = 1) ∧
    (¬input.isSilent →
      (PannerRenderer.process lib st input sp so lp lf lu).output.channels.length = 2) := by
  constructor
  · intro h
    rcases st with ⟨ci, co, cg, hso⟩
    have : (PannerRenderer.process lib ⟨ci, co, cg, hso⟩ input sp so lp lf lu).output =
        mixToMono input := by
      simp [PannerRenderer.process, h]
    rw [this, mixToMono_eq input]
    simp
  · intro h
    rcases st with ⟨ci, co, cg, hso⟩
    cases hso <;> simp [PannerRenderer.process, h]

/-- Witness for C10: a silent one-channel block produces a one-channel
output, a non-silent one produces a two-channel output. -/
theorem process_channel_count_witness :
    silentQuantum.isSilent ∧
    (PannerRenderer.process testLib testState silentQuantum v0 v0 v0 v0 v0).output.channels.length
      = 1 ∧
    ¬ oneQuantum.isSilent ∧
    (PannerRenderer.process testLib testState oneQuantum v0 v0 v0 v0 v0).output.channels.length
      = 2 := by
  have hsil : silentQuantum.isSilent := by
    intro c hc s hs
    simp [silentQuantum] at hc
    rw [hc] at hs
    simpa using hs
  have hns : ¬ oneQuantum.isSilent := by
    intro h
    have := h [1] (by simp [oneQuantum]) 1 (by simp)
    norm_num at this
  exact ⟨hsil,
    (process_channel_count testLib testState silentQuantum v0 v0 v0 v0 v0).1 hsil,
    hns,
    (process_channel_count testLib testState oneQuantum v0 v0 v0 v0 v0).2 hns⟩

/-- C6.  On an entirely silent input block `PannerRenderer::process`
returns immediately: the result is the mono down-mix of the input (which
is itself silent, i.e. the zero-filled passthrough) with keep-alive
`false` and the HRTF state untouched, and the result does not depend on
the spatialization parameters, the listener scalars, the cone
configuration or the convolution library. -/
theorem silence_short_circuit (lib : HrtfLib) (st : PannerRenderState)
    (input : AudioRenderQuantum) (sp so lp lf lu : V3) (h : input.isSilent) :
    PannerRenderer.process lib st input sp so lp lf lu =
      ⟨mixToMono input, false, st.hrtfState⟩ ∧
    (mixToMono input).isSilent ∧
    (∀ (lib' : HrtfLib) (st' : PannerRenderState) (sp' so' lp' lf' lu' : V3),
      st'.hrtfState = st.hrtfState →
      PannerRenderer.process lib' st' input sp' so' lp' lf' lu' =
        PannerRenderer.process lib st input sp so lp lf lu) := by
  have key : ∀ (lb : HrtfLib) (s : PannerRenderState) (a b c d e : V3),
      PannerRenderer.process lb s input a b c d e = ⟨mixToMono input, false, s.hrtfState⟩ := by
    intro lb s a b c d e
    simp [PannerRenderer.process, h]
  refine ⟨key lib st sp so lp lf lu, mixToMono_silent input h, ?_⟩
  intro lib' st' sp' so' lp' lf' lu' hst
  rw [key lib' st' sp' so' lp' lf' lu', key lib st sp so lp lf lu, hst]

/-- Witness for C6: the concrete silent block short-circuits with
keep-alive `false`, untouched (absent) HRTF state, a silent mono output,
and a result independent of a different cone configuration. -/
theorem silence_short_circuit_witness :
    silentQuantum.isSilent ∧
    PannerRenderer.process testLib testState silentQuantum v0 v0 v0 v0 v0 =
      ⟨mixToMono silentQuantum, false, none⟩ ∧
    (mixToMono silentQuantum).isSilent ∧
    PannerRenderer.process testLib ⟨90, 180, 1/2, none⟩ silentQuantum ⟨1, 2, 3⟩ ⟨4, 5, 6⟩
        ⟨7, 8, 9⟩ ⟨1, 0, 0⟩ ⟨0, 1, 0⟩ =
      PannerRenderer.process testLib testState silentQuantum v0 v0 v0 v0 v0 := by
  have hsil : silentQuantum.isSilent := by
    intro c hc s hs
    simp [silentQuantum] at hc
    rw [hc] at hs
    simpa using hs
  have h := silence_short_circuit testLib testState silentQuantum v0 v0 v0 v0 v0 hsil
  exact ⟨hsil, h.1, h.2.1,
    h.2.2 testLib ⟨90, 180, 1/2, none⟩ ⟨1, 2, 3⟩ ⟨4, 5, 6⟩ ⟨7, 8, 9⟩ ⟨1, 0, 0⟩ ⟨0, 1, 0⟩ rfl⟩

/-- The folded azimuth always lies in `[-90, 90]`. -/
lemma foldAzimuth_range (az : ℝ) : -90 ≤ foldAzimuth az ∧ foldAzimuth az ≤ 90 := by
  have hlo : (-180:ℝ) ≤ min (max az (-180)) 180 := le_min (le_max_right _ _) (by norm_num)
  have hhi : min (max az (-180)) 180 ≤ 180 := min_le_right _ _
  simp only [foldAzimuth]
  split_ifs with h1 h2 <;> constructor <;> linarith

/-- On `[-180, -90)` the fold reflects: `az ↦ -180 - az`. -/
lemma foldAzimuth_low (az : ℝ) (h1 : -180 ≤ az) (h2 : az < -90) :
    foldAzimuth az = -180 - az := by
  simp only [foldAzimuth]
  rw [max_eq_left h1, min_eq_left (by linarith), if_pos h2]

/-- On `(90, 180]` the fold reflects: `az ↦ 180 - az`. -/
lemma foldAzimuth_high (az : ℝ) (h1 : 90 < az) (h2 : az ≤ 180) :
    foldAzimuth az = 180 - az := by
  simp only [foldAzimuth]
  rw [max_eq_left (by linarith), min_eq_left h2,
    if_neg (by push_neg; linarith), if_pos h1]

/-- The fold first clamps its argument into `[-180, 180]`. -/
lemma foldAzimuth_clamp (az : ℝ) :
    foldAzimuth az = foldAzimuth (min (max az (-180)) 180) := by
  have hlo : (-180:ℝ) ≤ min (max az (-180)) 180 := le_min (le_max_right _ _) (by norm_num)
  have hhi : min (max az (-180)) 180 ≤ 180 := min_le_right _ _
  simp only [foldAzimuth]
  rw [max_eq_left hlo, min_eq_left hhi]

/-- The folded azimuth of `0` is `0`. -/
lemma foldAzimuth_zero : foldAzimuth 0 = 0 := by
  simp only [foldAzimuth]
  rw [max_eq_left (by norm_num : (-180:ℝ) ≤ 0), min_eq_left (by norm_num : (0:ℝ) ≤ 180),
    if_neg (show ¬((0:ℝ) < -90) by norm_num), if_neg (show ¬((90:ℝ) < 0) by norm_num)]

/-- The EqualPower branch of `PannerRenderer::process` in closed form:
every sample of the shared mono down-mix is multiplied per channel by the
ear gain times distance gain times cone gain. -/
lemma process_equalPower (lib : HrtfLib) (st : PannerRenderState)
    (input : AudioRenderQuantum) (sp so lp lf lu : V3)
    (hm : st.hrtfState = none) (hs : ¬input.isSilent) :
    PannerRenderer.process lib st input sp so lp lf lu =
      ⟨⟨[((mixToMono input).channel 0).map
          (fun v => v * (equalPowerGainL (azimuthElevation sp lp lf lu).1 *
            sourceDistGain sp lp *
            coneGain st.coneInnerAngle st.coneOuterAngle st.coneOuterGain
              (spatialAngle sp so lp))),
         ((mixToMono input).channel 0).map
          (fun v => v * (equalPowerGainR (azimuthElevation sp lp lf lu).1 *
            sourceDistGain sp lp *
            coneGain st.coneInnerAngle st.coneOuterAngle st.coneOuterGain
              (spatialAngle sp so lp)))]⟩, false, none⟩ := by
  rcases st with ⟨ci, co, cg, hso⟩
  simp only at hm
  subst hm
  simp only [PannerRenderer.process, if_neg hs]
  rw [mixToMono_eq input]
  simp [mixToStereo, AudioRenderQuantum.channel, sourceDistGain]

/-- C3.  In the EqualPower branch of `PannerRenderer::process` the azimuth
is clamped to `[-180, 180]` and folded into `[-90, 90]` by
`az ↦ -180 - az` below `-90` and `az ↦ 180 - az` above `90`; with
`x = (folded az + 90)/180` every sample of the left output channel is the
mono sample times `cos(x·π/2) · distance_gain · cone_gain` and every
sample of the right channel the mono sample times
`sin(x·π/2) · distance_gain · cone_gain`; elevation does not enter the
formula, and at azimuth `0` both ear gains equal `cos(π/4)`. -/
theorem equal_power_panning_spec (lib : HrtfLib) (st : PannerRenderState)
    (input : AudioRenderQuantum) (sp so lp lf lu : V3)
    (hm : st.hrtfState = none) (hs : ¬input.isSilent) :
    ((PannerRenderer.process lib st input sp so lp lf lu).output =
      ⟨[((mixToMono input).channel 0).map
          (fun v => v * (equalPowerGainL (azimuthElevation sp lp lf lu).1 *
            sourceDistGain sp lp *
            coneGain st.coneInnerAngle st.coneOuterAngle st.coneOuterGain
              (spatialAngle sp so lp))),
        ((mixToMono input).channel 0).map
          (fun v => v * (equalPowerGainR (azimuthElevation sp lp lf lu).1 *
            sourceDistGain sp lp *
            coneGain st.coneInnerAngle st.coneOuterAngle st.coneOuterGain
              (spatialAngle sp so lp)))]⟩) ∧
    (∀ az, foldAzimuth az = foldAzimuth (min (max az (-180)) 180)) ∧
    (∀ az, -90 ≤ foldAzimuth az ∧ foldAzimuth az ≤ 90) ∧
    (∀ az, -180 ≤ az → az < -90 → foldAzimuth az = -180 - az) ∧
    (∀ az, 90 < az → az ≤ 180 → foldAzimuth az = 180 - az) ∧
    (∀ az, equalPowerGainL az = Real.cos ((foldAzimuth az + 90) / 180 * (Real.pi / 2))) ∧
    (∀ az, equalPowerGainR az = Real.sin ((foldAzimuth az + 90) / 180 * (Real.pi / 2))) ∧
    equalPowerGainL 0 = Real.cos (Real.pi / 4) ∧
    equalPowerGainR 0 = Real.cos (Real.pi / 4) := by
  refine ⟨?_, foldAzimuth_clamp, foldAzimuth_range, foldAzimuth_low, foldAzimuth_high,
    fun _ => rfl, fun _ => rfl, ?_, ?_⟩
  · rw [process_equalPower lib st input sp so lp lf lu hm hs]
  · unfold equalPowerGainL
    rw [foldAzimuth_zero, show ((0:ℝ) + 90) / 180 * (Real.pi / 2) = Real.pi / 4 by ring]
  · unfold equalPowerGainR
    rw [foldAzimuth_zero, show ((0:ℝ) + 90) / 180 * (Real.pi / 2) = Real.pi / 4 by ring,
      Real.sin_pi_div_four, Real.cos_pi_div_four]

/-- Witness for C3: the EqualPower output of a concrete one-sample
non-silent block under the concrete render state. -/
theorem equal_power_panning_witness :
    testState.hrtfState = none ∧
    ¬ oneQuantum.isSilent ∧
    (PannerRenderer.process testLib testState oneQuantum v0 v0 v0 v0 v0).output =
      ⟨[((mixToMono oneQuantum).channel 0).map
          (fun v => v * (equalPowerGainL (azimuthElevation v0 v0 v0 v0).1 *
            sourceDistGain v0 v0 *
            coneGain testState.coneInnerAngle testState.coneOuterAngle testState.coneOuterGain
              (spatialAngle v0 v0 v0))),
        ((mixToMono oneQuantum).channel 0).map
          (fun v => v * (equalPowerGainR (azimuthElevation v0 v0 v0 v0).1 *
            sourceDistGain v0 v0 *
            coneGain testState.coneInnerAngle testState.coneOuterAngle testState.coneOuterGain
              (spatialAngle v0 v0 v0)))]⟩ := by
  have hns : ¬ oneQuantum.isSilent := by
    intro h
    have := h [1] (by simp [oneQuantum]) 1 (by simp)
    norm_num at this
  exact ⟨rfl, hns,
    (equal_power_panning_spec testLib testState oneQuantum v0 v0 v0 v0 v0 rfl hns).1⟩
